import Mathlib

/-!
Verification development for the Nomu "Eat or Get Eaten" replay verification
engine (verifyReplay.js).  The JavaScript source is shallowly embedded:

* JavaScript numbers that the checks compare exactly are modelled as rationals
  (`ℚ`), together with an explicit `nan` value and an `undef` value for missing
  fields, since the NaN-propagation and NaN-comparison semantics of JavaScript
  are load-bearing for several checks (`JVal` below).
* The two seeded PRNG streams produced by `seedrandom(seed + ":spec")` and
  `seedrandom(seed + ":timing")` are deterministic functions of the seed
  string; they are modelled as explicit draw sequences `ℕ → ℚ` and every
  statement quantifies over all such sequences.  The timing stream is modelled
  by the sequence of inter-arrival delays it yields (the source transforms
  each uniform draw u by the fixed map -ln(1-u)/1.8, which is a deterministic
  per-draw transformation, so quantifying over all delay sequences subsumes
  quantifying over all uniform draw sequences).
* Exceptions that escape the JavaScript function (there is no try/catch in
  verifyReplay.js) are modelled by the `Except JsErr` layer: `typeError` for a
  property access on null/undefined, `rangeError` for an invalid array length
  passed to `new Array`.
-/

namespace Nomu

/-- Model of a JavaScript number-or-missing value: a rational, NaN, or
undefined (absent field). -/
inductive JVal where
  | undef : JVal
  | nan : JVal
  | num (q : ℚ) : JVal
deriving DecidableEq

/-- Coercion applied by Math.max to its arguments: undefined becomes NaN. -/
def toNumber : JVal → JVal
  | .undef => .nan
  | v => v

/-- Model of JavaScript Math.max on two values: NaN (or undefined, which
coerces to NaN) absorbs, otherwise the numeric maximum. -/
def jmax (a b : JVal) : JVal :=
  match toNumber a, toNumber b with
  | .num x, .num y => .num (max x y)
  | _, _ => .nan

/-- Model of JavaScript + on two values restricted to the modelled carriers:
numeric addition, NaN if either side is NaN or undefined. -/
def jadd : JVal → JVal → JVal
  | .num a, .num b => .num (a + b)
  | _, _ => .nan

/-- Model of JavaScript binary - (subtraction). -/
def jsub : JVal → JVal → JVal
  | .num a, .num b => .num (a - b)
  | _, _ => .nan

/-- Model of JavaScript <: false whenever either side is NaN or undefined. -/
def jlt : JVal → JVal → Bool
  | .num a, .num b => decide (a < b)
  | _, _ => false

/-- Model of JavaScript >: false whenever either side is NaN or undefined. -/
def jgt : JVal → JVal → Bool
  | .num a, .num b => decide (b < a)
  | _, _ => false

/-- Model of JavaScript <=: false whenever either side is NaN or undefined. -/
def jle : JVal → JVal → Bool
  | .num a, .num b => decide (a ≤ b)
  | _, _ => false

/-- Model of JavaScript strict equality === on the modelled carriers.
NaN is not strictly equal to anything, including itself. -/
def jeqStrict : JVal → JVal → Bool
  | .num a, .num b => decide (a = b)
  | .undef, .undef => true
  | _, _ => false

/-- Model of Math.floor: floor on numbers, NaN otherwise. -/
def jfloor : JVal → JVal
  | .num q => .num ⌊q⌋
  | _ => .nan

/-- Model of typeof v === "number": NaN is a number in JavaScript. -/
def typeofNumber : JVal → Bool
  | .undef => false
  | _ => true

/-- Model of Math.round for the nonnegative cumulative times produced by the
schedule builder: round half toward positive infinity. -/
def jsRound (q : ℚ) : ℤ := ⌊q + 1 / 2⌋

/-- Spawn kinds, in the order of SPAWN_SPEC_WEIGHTS in the source. -/
inductive Kind where
  | fish | crab | jelly | electricJelly | sushi | puffer
deriving DecidableEq

/-- Wire name of a kind: the source aliases electricJelly to elecJelly. -/
def kindToWire : Kind → String
  | .fish => "fish"
  | .crab => "crab"
  | .jelly => "jelly"
  | .electricJelly => "elecJelly"
  | .sushi => "sushi"
  | .puffer => "puffer"

/-- Entry of the fish-type table fishTypeDefinitions. -/
structure FishDef where
  minSize : ℚ
  maxSize : ℚ
  weight : ℚ
deriving DecidableEq

/-- The fish-type table from the source (fishTypeDefinitions). -/
def fishTypeDefinitions : List FishDef :=
  [⟨10, 40, 0.432⟩, ⟨20, 60, 0.252⟩, ⟨25, 80, 0.2⟩,
   ⟨35, 100, 0.1⟩, ⟨200, 300, 0.013⟩, ⟨400, 500, 0.003⟩]

/-- TOTAL_FISH_WEIGHT: reduce over the table summing the weights. -/
def TOTAL_FISH_WEIGHT : ℚ :=
  fishTypeDefinitions.foldl (fun s f => s + f.weight) 0

/-- Spawn-kind weight table SPAWN_SPEC_WEIGHTS from the source, in order. -/
def SPAWN_SPEC_WEIGHTS : List (Kind × ℚ) :=
  [(.fish, 0.881), (.crab, 0.00147), (.jelly, 0.0294),
   (.electricJelly, 0.0147), (.sushi, 0.0147), (.puffer, 0.0587)]

/-- TOTAL_SPEC_WEIGHT: reduce over the weight table summing the weights. -/
def TOTAL_SPEC_WEIGHT : ℚ :=
  SPAWN_SPEC_WEIGHTS.foldl (fun s w => s + w.2) 0

/-- Weighted-categorical walk shared by the two samplers in the source: keep
subtracting bucket weights from the running draw until it falls below the
next bucket; none if the whole list is traversed without consuming the draw. -/
def pickFromList {α : Type} : ℚ → List (α × ℚ) → Option α
  | _, [] => none
  | r, (k, w) :: ws => if r < w then some k else pickFromList (r - w) ws

/-- Walk used by pickWeightedFishIndex, returning the position reached. -/
def pickIndexWalk : ℚ → List ℚ → Option ℕ
  | _, [] => none
  | r, w :: ws =>
    if r < w then some 0 else (pickIndexWalk (r - w) ws).map (fun n => n + 1)

/-- pickWeightedFishIndex from the source, as a function of the single draw it
consumes: scale the draw by the total weight, walk the table, and fall back to
the last index if the walk does not consume the draw. -/
def pickWeightedFishIndex (u : ℚ) : ℕ :=
  (pickIndexWalk (u * TOTAL_FISH_WEIGHT) (fishTypeDefinitions.map FishDef.weight)).getD
    (fishTypeDefinitions.length - 1)

/-- Spawn-kind selection in the schedule loop (source lines 139-148), as a
function of the single draw it consumes: scale the draw by TOTAL_SPEC_WEIGHT,
walk SPAWN_SPEC_WEIGHTS subtracting weights, and fall back to "fish" when the
walk leaves the loop without selecting a kind (the source line
  if (!kind) kind = "fish"). -/
def pickSpawnKind (u : ℚ) : Kind :=
  (pickFromList (u * TOTAL_SPEC_WEIGHT) SPAWN_SPEC_WEIGHTS).getD .fish

/-- Modelled from the spec: the same weighted-categorical walk, but falling
back to the last kind in the list (puffer) when the draw is left unconsumed
after the whole pass, as the specification describes.  Used only to compare
the specified fallback with the fallback actually implemented. -/
def specPickSpawnKind (u : ℚ) : Kind :=
  (pickFromList (u * TOTAL_SPEC_WEIGHT) SPAWN_SPEC_WEIGHTS).getD .puffer

/-- Tagged union of kind-specific spawn attributes, as built by the schedule
loop in the source. -/
inductive SpawnSpec where
  | fish (fishTypeIndex : ℕ) (size : ℚ) (fromLeft ultra fast : Bool) (baseSpeed : ℚ)
  | crab (size : ℚ)
  | jelly (size : ℚ)
  | electricJelly (size : ℚ)
  | sushi (fromLeft : Bool)
  | puffer (baseSize : ℚ) (fromLeft : Bool)
deriving DecidableEq

/-- Kind tag of a spawn spec. -/
def kindOf : SpawnSpec → Kind
  | .fish _ _ _ _ _ _ => .fish
  | .crab _ => .crab
  | .jelly _ => .jelly
  | .electricJelly _ => .electricJelly
  | .sushi _ => .sushi
  | .puffer _ _ => .puffer

/-- Ultra flag of a spawn spec coerced by !!: false for every kind that does
not carry the flag (reading an absent property yields undefined, and
!!undefined is false). -/
def specUltra : SpawnSpec → Bool
  | .fish _ _ _ u _ _ => u
  | _ => false

/-- getSpecRandom from the source: affine map of a unit draw onto [a, b]. -/
def getSpecRandom (u a b : ℚ) : ℚ := u * (b - a) + a

/-- Default used to totalise the fish-table lookup; the builder only ever
produces indices below the table length (see pickWeightedFishIndex_lt). -/
def defaultFishDef : FishDef := ⟨10, 40, 0.432⟩

/-- Kind-specific spawn-spec construction (the switch in source lines
152-204), consuming draws s p, s (p+1), ... of the spec stream in the exact
order of the source; returns the spec together with the next unread stream
position. -/
def mkSpec (s : ℕ → ℚ) (p : ℕ) : SpawnSpec × ℕ :=
  match pickSpawnKind (s p) with
  | .fish =>
    let tIdx := pickWeightedFishIndex (s (p + 1))
    let tDef := fishTypeDefinitions.getD tIdx defaultFishDef
    let size := getSpecRandom (s (p + 2)) tDef.minSize tDef.maxSize
    let fromLeft := decide (s (p + 3) < 0.5)
    let rand := s (p + 4)
    let ultra := decide (rand < 0.01)
    let fast := !ultra && decide (rand < 0.04)
    let sizeFactor := 1 - size / 500
    let baseSpeed :=
      getSpecRandom (s (p + 5)) (0.3 + 0.5 * sizeFactor) (1.5 + 0.3 * sizeFactor)
    (.fish tIdx size fromLeft ultra fast baseSpeed, p + 6)
  | .crab => (.crab (getSpecRandom (s (p + 1)) 50 120), p + 2)
  | .jelly => (.jelly (getSpecRandom (s (p + 1)) 30 80), p + 2)
  | .electricJelly => (.electricJelly (getSpecRandom (s (p + 1)) 40 90), p + 2)
  | .sushi => (.sushi (decide (s (p + 1) < 0.5)), p + 2)
  | .puffer =>
    (.puffer (getSpecRandom (s (p + 1)) 30 60) (decide (s (p + 2) < 0.5)), p + 3)

/-- Schedule entry: cumulative spawn time in ms and the spawn spec. -/
structure ScheduleEntry where
  spawnTimeMs : ℤ
  spec : SpawnSpec
deriving DecidableEq

/-- State threaded through the schedule loop: next unread position of the
spec stream, next unread position of the timing (delay) stream, and the
cumulative spawn time in seconds. -/
structure BuildState where
  specPos : ℕ
  timingPos : ℕ
  cursorSec : ℚ
deriving DecidableEq

/-- One iteration of the schedule loop: build the spawn spec, advance the
cumulative time by the next delay, and emit the entry. -/
def stepEntry (s d : ℕ → ℚ) (st : BuildState) : ScheduleEntry × BuildState :=
  let sp := mkSpec s st.specPos
  let cursor := st.cursorSec + d st.timingPos
  (⟨jsRound (cursor * 1000), sp.1⟩, ⟨sp.2, st.timingPos + 1, cursor⟩)

/-- Build n consecutive schedule entries starting from the given state. -/
def buildFrom (s d : ℕ → ℚ) (st : BuildState) : ℕ → List ScheduleEntry
  | 0 => []
  | n + 1 =>
    let e := stepEntry s d st
    e.1 :: buildFrom s d e.2 n

/-- buildSchedule: the schedule entries for indices 0 .. maxIdx, exactly as
the loop in source lines 137-209 fills `schedule`.  The two streams stand for
the draw sequence of seedrandom(seed + ":spec") and the inter-arrival delay
sequence derived from seedrandom(seed + ":timing"); both are deterministic
functions of the seed string. -/
def buildSchedule (s d : ℕ → ℚ) (maxIdx : ℕ) : List ScheduleEntry :=
  buildFrom s d ⟨0, 0, 0⟩ (maxIdx + 1)

/-- State of the schedule loop after i iterations from the initial state. -/
def iterState (s d : ℕ → ℚ) (st : BuildState) : ℕ → BuildState
  | 0 => st
  | n + 1 => iterState s d (stepEntry s d st).2 n

/-- Position of the spec stream at which the kind draw for schedule index i
is read. -/
def specPosAt (s d : ℕ → ℚ) (i : ℕ) : ℕ :=
  (iterState s d ⟨0, 0, 0⟩ i).specPos

/-- Size bounds the client is allowed to report (TYPE_SIZE_BOUNDS in the
source).  The source dispatches on the submitted type string, which at the
point of use is strictly equal to the wire name of the scheduled kind, and
reads entry.spec.fishTypeIndex for fish; dispatching on the scheduled spec is
therefore equivalent. -/
structure SizeBounds where
  minSize : ℚ
  maxSize : ℚ
deriving DecidableEq

/-- TYPE_SIZE_BOUNDS resolved against a schedule entry spec. -/
def sizeBoundsFor : SpawnSpec → SizeBounds
  | .fish i _ _ _ _ _ =>
    let d := fishTypeDefinitions.getD i defaultFishDef
    ⟨d.minSize, d.maxSize⟩
  | .crab _ => ⟨50, 120⟩
  | .jelly _ => ⟨30, 80⟩
  | .electricJelly _ => ⟨40, 90⟩
  | .sushi _ => ⟨30, 30⟩
  | .puffer _ _ => ⟨30, 240⟩

/-- Submitted eaten event: either a JavaScript value that is null or
undefined (any property access on it throws a TypeError), or an object whose
relevant properties are read by the verifier.  A property that is absent or
not a number is JVal.undef or JVal.nan; a type property that is not a string
is modelled as none. -/
inductive EatenItem where
  | nullish : EatenItem
  | obj (idx t : JVal) (type : Option String) (size : JVal) (ultra : Option Bool) : EatenItem
deriving DecidableEq

/-- Replay claim as destructured by verifyReplay.  seed is some string or
none when not a string; eaten is some list or none when not an array; the
remaining fields are JavaScript values. -/
structure ReplayClaim where
  seed : Option String
  eaten : Option (List EatenItem)
  finalScore : JVal
  gameTime : JVal
  eatenBy : JVal
  startTime : JVal
  endTime : JVal

/-- Structured result of verifyReplay. -/
structure VerificationResult where
  ok : Bool
  failedDueTo : Option String
deriving DecidableEq

/-- Exceptions that verifyReplay can raise past its boundary: TypeError from
a property access on null/undefined, RangeError from new Array with an
invalid length. -/
inductive JsErr where
  | typeError
  | rangeError
deriving DecidableEq

def malformedResult : VerificationResult :=
  ⟨false, some "Verification failed: malformed arguments"⟩

def emptyNonZeroResult : VerificationResult :=
  ⟨false, some "Verification failed: empty eaten array but non-zero score"⟩

def missingIdxResult : VerificationResult :=
  ⟨false, some "Verification failed: eaten array empty or missing idx values"⟩

def badEatenByResult : VerificationResult :=
  ⟨false, some "Verification failed: missing or invalid eatenBy idx"⟩

def sessionInvalidResult : VerificationResult :=
  ⟨false, some "Verification failed: missing/invalid startTime or endTime"⟩

def noKillerEntryResult : VerificationResult :=
  ⟨false, some "Verification failed: eatenBy idx has no schedule entry"⟩

def killerAfterEndResult : VerificationResult :=
  ⟨false, some "Verification failed: eatenBy idx spawned AFTER reported endTime"⟩

def killerTooOldResult : VerificationResult :=
  ⟨false, some "Verification failed: eatenBy idx spawned more than 60 000 ms before endTime"⟩

def noEntryResult : VerificationResult :=
  ⟨false, some "Verification failed: no schedule entry for idx"⟩

def windowViolationResult : VerificationResult :=
  ⟨false, some "Verification failed: eaten outside allowed window"⟩

def typeMismatchResult : VerificationResult :=
  ⟨false, some "Verification failed: type mismatch"⟩

def sizeOutOfBoundsResult : VerificationResult :=
  ⟨false, some "Verification failed: size outside bounds"⟩

def ultraMismatchResult : VerificationResult :=
  ⟨false, some "Verification failed: ultra flag mismatch"⟩

def scoreMismatchResult : VerificationResult :=
  ⟨false, some "Verification failed: computed score mismatch"⟩

def okResult : VerificationResult := ⟨true, none⟩

/-- The reduce of source line 120: fold Math.max over e.idx starting from -1,
throwing a TypeError if an element is null or undefined (the property access
e.idx on it throws). -/
def eatenMaxIdx : List EatenItem → JVal → Except JsErr JVal
  | [], acc => .ok acc
  | .nullish :: _, _ => .error .typeError
  | .obj idx _ _ _ _ :: rest, acc => eatenMaxIdx rest (jmax acc idx)

/-- maxIdx of source lines 119-122: the max of the reduce over eaten and of
eatenBy when eatenBy is a number, -1 otherwise. -/
def maxIdxCalc (evs : List EatenItem) (eatenBy : JVal) : Except JsErr JVal :=
  match eatenMaxIdx evs (.num (-1)) with
  | .error je => .error je
  | .ok m => .ok (jmax m (if typeofNumber eatenBy then eatenBy else .num (-1)))

/-- new Array(len) of source line 133: the length must be a nonnegative
integer below 2^32, else a RangeError is thrown (in particular NaN, which
arises from any missing or non-numeric idx, is an invalid length). -/
def arrayLen : JVal → Except JsErr ℕ
  | .num q =>
    if q.den = 1 ∧ 0 ≤ q ∧ q < 2 ^ 32 then .ok q.num.toNat else .error .rangeError
  | _ => .error .rangeError

/-- Array lookup schedule[v] with a JavaScript value as index: an entry is
returned iff v is an integer-valued number within range; otherwise the access
yields undefined, which is falsy. -/
def lookupEntry (sch : List ScheduleEntry) : JVal → Option ScheduleEntry
  | .num q => if q.den = 1 ∧ 0 ≤ q then sch[q.num.toNat]? else none
  | _ => none

/-- Check of source line 212: typeof eatenBy === "number" and not
eatenBy < 0 (NaN compares false, hence passes the second conjunct). -/
def eatenByCheck (c : ReplayClaim) : Bool :=
  typeofNumber c.eatenBy && !jlt c.eatenBy (.num 0)

/-- Check of source lines 219-224: startTime and endTime are numbers, endTime
<= startTime is false, and endTime - startTime > gameTime + 3000 is false.
gameTime is never type-checked: when it is missing, gameTime + 3000 is NaN
and the duration bound comparison is false, hence passes. -/
def sessionCheck (c : ReplayClaim) : Bool :=
  typeofNumber c.startTime && typeofNumber c.endTime &&
    !jle c.endTime c.startTime &&
    !jgt (jsub c.endTime c.startTime) (jadd c.gameTime (.num 3000))

/-- Checks of source lines 211-263, before the per-event loop: eatenBy
validity, session window, killer entry existence, and the two killer timing
bounds.  Returns the rejection result of the first failing check, or none
when all pass. -/
def preEventChecks (sch : List ScheduleEntry) (c : ReplayClaim) : Option VerificationResult :=
  if !eatenByCheck c then some badEatenByResult
  else if !sessionCheck c then some sessionInvalidResult
  else
    match lookupEntry sch c.eatenBy with
    | none => some noKillerEntryResult
    | some entry =>
      let dur := jsub c.endTime c.startTime
      if jgt (.num (entry.spawnTimeMs : ℚ)) dur then some killerAfterEndResult
      else if jgt (jsub dur (.num (entry.spawnTimeMs : ℚ))) (.num 120000) then
        some killerTooOldResult
      else none

/-- Body of the per-event loop (source lines 268-337) for an event that is an
object: schedule entry lookup, dwell window, type match, size bounds, ultra
flag; on success returns the points the event contributes (50 for sushi,
floor of the submitted size otherwise). -/
def checkEventObj (sch : List ScheduleEntry) (idx t : JVal) (ty : Option String)
    (sz : JVal) (ul : Option Bool) : Except VerificationResult JVal :=
  match lookupEntry sch idx with
  | none => .error noEntryResult
  | some entry =>
    let dt := jsub t (.num (entry.spawnTimeMs : ℚ))
    if jlt dt (.num 0) || jgt dt (.num 60000) then .error windowViolationResult
    else
      let expectedType := kindToWire (kindOf entry.spec)
      if ty ≠ some expectedType then .error typeMismatchResult
      else
        let b := sizeBoundsFor entry.spec
        if jlt sz (.num (b.minSize - 0.001)) || jgt sz (.num (b.maxSize + 0.001)) then
          .error sizeOutOfBoundsResult
        else if ty = some "fish" && (Option.getD ul false != specUltra entry.spec) then
          .error ultraMismatchResult
        else .ok (if ty = some "sushi" then .num 50 else jfloor sz)

/-- The per-event loop: accumulate points, stop at the first rejection; a
null or undefined element would throw a TypeError at the destructuring (it
cannot in fact reach the loop, since the earlier maxIdx reduce already
throws on it). -/
def eventsLoop (sch : List ScheduleEntry) :
    List EatenItem → JVal → Except JsErr (Except VerificationResult JVal)
  | [], acc => .ok (.ok acc)
  | .nullish :: _, _ => .error .typeError
  | .obj idx t ty sz ul :: rest, acc =>
    match checkEventObj sch idx t ty sz ul with
    | .error r => .ok (.error r)
    | .ok pts => eventsLoop sch rest (jadd acc pts)

/-- Stages 3-5 of verifyReplay, after the schedule has been built: the
pre-event checks, the per-event loop, and the final exact score comparison
(computedScore !== finalScore rejects). -/
def verifyCore (sch : List ScheduleEntry) (c : ReplayClaim) (evs : List EatenItem) :
    Except JsErr VerificationResult :=
  match preEventChecks sch c with
  | some r => .ok r
  | none =>
    match eventsLoop sch evs (.num 0) with
    | .error je => .error je
    | .ok (.error r) => .ok r
    | .ok (.ok total) =>
      .ok (if jeqStrict total c.finalScore then okResult else scoreMismatchResult)

/-- Shape check of source lines 78-82: seed is a string, eaten is an array,
finalScore is a number. -/
def shapeOk (c : ReplayClaim) : Bool :=
  c.seed.isSome && c.eaten.isSome && typeofNumber c.finalScore

/-- verifyReplay from the source, parametrised by the two deterministic draw
sequences derived from the seed (spec stream and timing delay stream): shape
check, empty-run special case, maxIdx computation (which can throw a
TypeError), schedule array allocation (which can throw a RangeError),
schedule construction, and the remaining checks. -/
def verifyReplay (s d : ℕ → ℚ) (c : ReplayClaim) : Except JsErr VerificationResult :=
  if !shapeOk c then .ok malformedResult
  else
    let evs := c.eaten.getD []
    if evs.isEmpty then
      .ok (if jeqStrict c.finalScore (.num 0) then okResult else emptyNonZeroResult)
    else
      match maxIdxCalc evs c.eatenBy with
      | .error je => .error je
      | .ok m =>
        if jlt m (.num 0) then .ok missingIdxResult
        else
          match arrayLen (jadd m (.num 1)) with
          | .error je => .error je
          | .ok len => verifyCore (buildSchedule s d (len - 1)) c evs

/-- Contribution of one submitted event to the expected score, computed from
the submitted fields only: 50 points for a sushi event, floor of the
submitted size otherwise (the nullish branch is never reached by a claim
that survives the maxIdx reduce). -/
def scoreStep (acc : JVal) (e : EatenItem) : JVal :=
  match e with
  | .nullish => jadd acc .nan
  | .obj _ _ ty sz _ => jadd acc (if ty = some "sushi" then .num 50 else jfloor sz)

/-- Expected score of a list of submitted events, computed from the submitted
fields only (no schedule access). -/
def claimedScore (evs : List EatenItem) : JVal :=
  evs.foldl scoreStep (.num 0)

/-- Event indices for which verifyReplay cannot throw: the element is an
object and its idx is an integer-valued number small enough that the
schedule array length stays valid. -/
def goodIdx : JVal → Bool
  | .num q => decide (q.den = 1 ∧ q < 2 ^ 32 - 1)
  | _ => false

/-- Event items for which verifyReplay cannot throw. -/
def goodItem : EatenItem → Bool
  | .nullish => false
  | .obj idx _ _ _ _ => goodIdx idx

/-- eatenBy values for which verifyReplay cannot throw: either not a number
at all (the source substitutes -1) or an integer-valued number small enough
for the schedule array length to stay valid. -/
def goodEatenBy : JVal → Bool
  | .undef => true
  | .nan => false
  | .num q => decide (q.den = 1 ∧ q < 2 ^ 32 - 1)

/- Concrete inputs used by closed statements and witnesses below. -/

/-- Spec-stream draws all equal to 1/2: index 0 then resolves to a fish of
sub-type 1 with size 40 and ultra = false. -/
def halfDraws : ℕ → ℚ := fun _ => 1 / 2

/-- Spec-stream draws all equal to 0.93: index 0 then resolves to sushi. -/
def sushiDraws : ℕ → ℚ := fun _ => 0.93

/-- Timing delays all equal to 1 second: index 0 spawns at 1000 ms. -/
def unitDelays : ℕ → ℚ := fun _ => 1

/-- Event eating spawn 0 of the halfDraws schedule at its spawn time. -/
def fishEvent : EatenItem := .obj (.num 0) (.num 1000) (some "fish") (.num 40) none

/-- Claim submitting fishEvent twice, scoring spawn 0 twice. -/
def dupClaim : ReplayClaim :=
  { seed := some "seed", eaten := some [fishEvent, fishEvent], finalScore := .num 80,
    gameTime := .num 1000, eatenBy := .num 0, startTime := .num 0, endTime := .num 1000 }

/-- Event eating spawn 0 of the sushiDraws schedule at its spawn time. -/
def sushiEvent : EatenItem := .obj (.num 0) (.num 1000) (some "sushi") (.num 30) none

/-- Honest single-kill sushi claim over the sushiDraws schedule, with the
sushi event submitted twice (100 = 2 * 50 points). -/
def sushiClaim : ReplayClaim :=
  { seed := some "seed", eaten := some [sushiEvent, sushiEvent], finalScore := .num 100,
    gameTime := .num 1000, eatenBy := .num 0, startTime := .num 0, endTime := .num 1000 }

/-- Claim whose eaten array contains a non-object element. -/
def nullItemClaim : ReplayClaim :=
  { seed := some "seed", eaten := some [.nullish], finalScore := .num 5,
    gameTime := .undef, eatenBy := .undef, startTime := .undef, endTime := .undef }

/-- Claim whose single event lacks an idx property. -/
def noIdxClaim : ReplayClaim :=
  { seed := some "seed", eaten := some [.obj .undef .undef none .undef none],
    finalScore := .num 5, gameTime := .undef, eatenBy := .undef,
    startTime := .undef, endTime := .undef }

/-- Empty-run claim with zero score. -/
def emptyZeroClaim : ReplayClaim :=
  { seed := some "seed", eaten := some [], finalScore := .num 0,
    gameTime := .undef, eatenBy := .undef, startTime := .undef, endTime := .undef }

/-- Empty-run claim with score 1. -/
def emptyOneClaim : ReplayClaim :=
  { seed := some "seed", eaten := some [], finalScore := .num 1,
    gameTime := .undef, eatenBy := .undef, startTime := .undef, endTime := .undef }

/-- A one-entry schedule with a sushi spawn at 1000 ms, for per-event
check statements. -/
def sushiEntry : ScheduleEntry := ⟨1000, .sushi false⟩

/-- A one-entry schedule with a crab spawn at 0 ms (crab minSize is 50),
for size-bound statements. -/
def crabEntry : ScheduleEntry := ⟨0, .crab 60⟩

/-- Claim whose killer spawn (1000 ms) lies inside the 0..1500 window. -/
def killerOkClaim : ReplayClaim :=
  { seed := some "seed", eaten := some [sushiEvent], finalScore := .num 50,
    gameTime := .num 1000000, eatenBy := .num 0, startTime := .num 0,
    endTime := .num 1500 }

/-- Claim whose killer spawn (1000 ms) exceeds the 0..500 window. -/
def killerLateClaim : ReplayClaim :=
  { seed := some "seed", eaten := some [sushiEvent], finalScore := .num 50,
    gameTime := .num 1000000, eatenBy := .num 0, startTime := .num 0,
    endTime := .num 500 }

/- Helper lemmas about the schedule builder. -/

lemma buildFrom_take (s d : ℕ → ℚ) :
    ∀ (n k : ℕ) (st : BuildState),
      (buildFrom s d st (n + k)).take n = buildFrom s d st n := by
  intro n
  induction n with
  | zero => intro k st; simp [buildFrom]
  | succ m ih =>
    intro k st
    have h : m + 1 + k = (m + k) + 1 := by omega
    rw [h]
    simp only [buildFrom, List.take_succ_cons]
    rw [ih k (stepEntry s d st).2]

lemma buildFrom_length (s d : ℕ → ℚ) :
    ∀ (n : ℕ) (st : BuildState), (buildFrom s d st n).length = n := by
  intro n
  induction n with
  | zero => intro st; simp [buildFrom]
  | succ m ih => intro st; simp [buildFrom, ih]

lemma buildFrom_getElem (s d : ℕ → ℚ) :
    ∀ (i n : ℕ) (st : BuildState), i < n →
      (buildFrom s d st n)[i]? = some (stepEntry s d (iterState s d st i)).1 := by
  intro i
  induction i with
  | zero =>
    intro n st hn
    match n, hn with
    | m + 1, _ => simp [buildFrom, iterState]
  | succ j ih =>
    intro n st hn
    match n, hn with
    | m + 1, hn =>
      have hj : j < m := by omega
      simp only [buildFrom, List.getElem?_cons_succ, iterState]
      exact ih m (stepEntry s d st).2 hj

lemma kindOf_mkSpec (s : ℕ → ℚ) (p : ℕ) :
    kindOf (mkSpec s p).1 = pickSpawnKind (s p) := by
  unfold mkSpec
  cases h : pickSpawnKind (s p) <;> simp [kindOf]

lemma pickFromList_isSome (r : ℚ) (l : List (Kind × ℚ)) (h0 : 0 ≤ r)
    (hs : r < (l.map Prod.snd).sum) : (pickFromList r l).isSome = true := by
  induction l generalizing r with
  | nil => simp at hs; linarith
  | cons hd tl ih =>
    simp only [List.map_cons, List.sum_cons] at hs
    by_cases hr : r < hd.2
    · simp [pickFromList, hr]
    · push_neg at hr
      simp only [pickFromList, if_neg (not_lt.mpr hr)]
      exact ih (r - hd.2) (by linarith) (by linarith)

lemma pickSpawnKind_agree (u : ℚ) (h0 : 0 ≤ u) (h1 : u < 1) :
    pickSpawnKind u = specPickSpawnKind u := by
  have hT : (0 : ℚ) < TOTAL_SPEC_WEIGHT := by
    norm_num [TOTAL_SPEC_WEIGHT, SPAWN_SPEC_WEIGHTS, List.foldl]
  have hsum : (SPAWN_SPEC_WEIGHTS.map Prod.snd).sum = TOTAL_SPEC_WEIGHT := by
    norm_num [TOTAL_SPEC_WEIGHT, SPAWN_SPEC_WEIGHTS, List.foldl, List.map, List.sum]
  have h2 : u * TOTAL_SPEC_WEIGHT < TOTAL_SPEC_WEIGHT := by nlinarith
  have h3 : 0 ≤ u * TOTAL_SPEC_WEIGHT := mul_nonneg h0 (le_of_lt hT)
  have hsome := pickFromList_isSome (u * TOTAL_SPEC_WEIGHT) SPAWN_SPEC_WEIGHTS h3
    (by rw [hsum]; exact h2)
  obtain ⟨k, hk⟩ := Option.isSome_iff_exists.mp hsome
  simp [pickSpawnKind, specPickSpawnKind, hk]

/-- C1: Schedule generation is deterministic with prefix stability: for every
seed (modelled by its two derived draw sequences) and all N, k, building the
schedule up to index N twice yields the same sequence of
(spawnTimeMs, spec) entries, and the first N+1 entries of the schedule built
up to index N+k equal the schedule built up to index N. -/
theorem buildSchedule_deterministic_stable (s d : ℕ → ℚ) (N k : ℕ) :
    buildSchedule s d N = buildSchedule s d N ∧
      (buildSchedule s d (N + k)).take (N + 1) = buildSchedule s d N := by
  refine ⟨rfl, ?_⟩
  unfold buildSchedule
  have h : N + k + 1 = (N + 1) + k := by omega
  rw [h]
  exact buildFrom_take s d (N + 1) k ⟨0, 0, 0⟩

/-- C4 (amended): for every schedule index, the spawn kind is chosen by
exactly one draw from the spec stream (the draw at the spec-stream position
reached at that index) via the weighted-categorical walk pickSpawnKind over
the fixed weights, whose fallback when the draw is left unconsumed is the
FIRST kind, fish, not the last; for draws in [0, 1) the walk always consumes
the draw, so there the implemented fallback agrees with the fallback to the
last kind that the specification describes. -/
theorem spawnKind_one_weighted_draw (s d : ℕ → ℚ) (N i : ℕ) (e : ScheduleEntry)
    (h : (buildSchedule s d N)[i]? = some e) :
    kindOf e.spec = pickSpawnKind (s (specPosAt s d i)) ∧
      ∀ u : ℚ, 0 ≤ u → u < 1 → pickSpawnKind u = specPickSpawnKind u := by
  constructor
  · have hlen : i < N + 1 := by
      have := List.getElem?_eq_some_iff.mp h
      obtain ⟨hlt, _⟩ := this
      simpa [buildSchedule, buildFrom_length] using hlt
    rw [buildSchedule, buildFrom_getElem s d i (N + 1) ⟨0, 0, 0⟩ hlen] at h
    have he : e = (stepEntry s d (iterState s d ⟨0, 0, 0⟩ i)).1 := by
      exact (Option.some.injEq _ _).mp h.symm
    subst he
    simp only [stepEntry, specPosAt]
    exact kindOf_mkSpec s _
  · exact pickSpawnKind_agree

/-- C4 (witness): on the sushiDraws schedule index 0 exists, and its kind is
exactly the one weighted draw at the spec-stream position reached there. -/
theorem spawnKind_one_weighted_draw_witness :
    (buildSchedule sushiDraws unitDelays 0)[0]? = some sushiEntry ∧
      kindOf sushiEntry.spec =
        pickSpawnKind (sushiDraws (specPosAt sushiDraws unitDelays 0)) := by
  have hbs : (buildSchedule sushiDraws unitDelays 0)[0]? = some sushiEntry := by
    norm_num [buildSchedule, buildFrom, stepEntry, mkSpec, pickSpawnKind, pickFromList,
      TOTAL_SPEC_WEIGHT, SPAWN_SPEC_WEIGHTS, sushiDraws, unitDelays, jsRound, sushiEntry,
      List.foldl]
  exact ⟨hbs, (spawnKind_one_weighted_draw sushiDraws unitDelays 0 0 sushiEntry hbs).1⟩

/-- C4 (counterexample): at a draw of exactly 1 the walk leaves the draw
unconsumed (the weights sum to 0.99997) and the code falls back to fish, the
first kind, whereas the claimed fallback to the last kind in the list would
give puffer. -/
theorem spawnKind_fallback_is_fish_not_last :
    (buildSchedule (fun _ => 1) (fun _ => 0) 0).map (fun e => kindOf e.spec) = [Kind.fish] ∧
      specPickSpawnKind 1 = Kind.puffer ∧ Kind.fish ≠ Kind.puffer := by
  refine ⟨?_, ?_, by simp⟩
  · norm_num [buildSchedule, buildFrom, stepEntry, mkSpec, pickSpawnKind, pickFromList,
      TOTAL_SPEC_WEIGHT, SPAWN_SPEC_WEIGHTS, List.foldl, kindOf]
  · norm_num [specPickSpawnKind, pickFromList, TOTAL_SPEC_WEIGHT, SPAWN_SPEC_WEIGHTS,
      List.foldl]

/-- C8: for every claim passing the shape check whose eaten array is empty,
verifyReplay accepts iff finalScore === 0, and otherwise rejects with the
reason naming the empty eaten array with non-zero score. -/
theorem verifyReplay_empty_run (s d : ℕ → ℚ) (c : ReplayClaim)
    (hse : c.seed.isSome = true) (he : c.eaten = some ([] : List EatenItem))
    (hf : typeofNumber c.finalScore = true) :
    (verifyReplay s d c = .ok okResult ↔ jeqStrict c.finalScore (.num 0) = true) ∧
      (jeqStrict c.finalScore (.num 0) = false →
        verifyReplay s d c = .ok emptyNonZeroResult) := by
  have hsh : shapeOk c = true := by
    simp [shapeOk, hse, he, hf]
  unfold verifyReplay
  rw [hsh, he]
  simp only [Bool.not_true, Bool.false_eq_true, if_false, Option.getD_some,
    List.isEmpty_nil, if_true]
  by_cases hz : jeqStrict c.finalScore (.num 0) = true
  · rw [if_pos hz]
    exact ⟨by simp [hz], fun hc => by rw [hz] at hc; cases hc⟩
  · have hz' : jeqStrict c.finalScore (.num 0) = false := by
      cases h : jeqStrict c.finalScore (.num 0)
      · rfl
      · exact absurd h hz
    rw [if_neg (by simp [hz'])]
    constructor
    · constructor
      · intro h
        exfalso
        have : emptyNonZeroResult = okResult := by
          exact (Except.ok.injEq _ _).mp h
        simp [emptyNonZeroResult, okResult] at this
      · intro h; rw [h] at hz'; cases hz'
    · intro _; rfl

/-- C8 (witness): with an empty eaten array, finalScore 0 is accepted and
finalScore 1 is rejected with the empty-array reason. -/
theorem verifyReplay_empty_run_witness :
    verifyReplay halfDraws unitDelays emptyZeroClaim = .ok okResult ∧
      verifyReplay halfDraws unitDelays emptyOneClaim = .ok emptyNonZeroResult := by
  constructor
  · exact (verifyReplay_empty_run halfDraws unitDelays emptyZeroClaim rfl rfl rfl).1.mpr
      (by norm_num [emptyZeroClaim, jeqStrict])
  · exact (verifyReplay_empty_run halfDraws unitDelays emptyOneClaim rfl rfl rfl).2
      (by norm_num [emptyOneClaim, jeqStrict])

set_option maxHeartbeats 2000000 in
/-- C9: the validator enforces no uniqueness on submitted event indices:
dupClaim submits the same idx twice, each copy passing every per-event check,
with finalScore equal to twice the single spawn contribution, and
verifyReplay accepts it. -/
theorem verifyReplay_duplicate_idx_accepted :
    dupClaim.eaten = some [fishEvent, fishEvent] ∧
      verifyReplay halfDraws unitDelays dupClaim = .ok okResult := by
  refine ⟨rfl, ?_⟩
  norm_num [verifyReplay, shapeOk, dupClaim, maxIdxCalc, eatenMaxIdx, jmax, toNumber,
    typeofNumber, jlt, jadd, jsub, jgt, jle, jeqStrict, jfloor, arrayLen, buildSchedule,
    buildFrom, stepEntry, mkSpec, pickSpawnKind, pickFromList, TOTAL_SPEC_WEIGHT,
    SPAWN_SPEC_WEIGHTS, pickWeightedFishIndex, pickIndexWalk, fishTypeDefinitions,
    TOTAL_FISH_WEIGHT, getSpecRandom, defaultFishDef, jsRound, verifyCore, preEventChecks,
    eatenByCheck, sessionCheck, lookupEntry, checkEventObj, eventsLoop, kindOf, kindToWire,
    sizeBoundsFor, specUltra, okResult, fishEvent, halfDraws, unitDelays, List.foldl,
    List.isEmpty]
  rw [if_neg (show ¬(("fish" : String) = "sushi") from by decide)]
  norm_num

/-- C10: when gameTime is missing or NaN the session-duration bound is not
enforced: for numeric startTime < endTime the session-window check passes
regardless of the size of endTime - startTime (the comparison against
gameTime + 3000 is false on NaN), and the claim is never rejected with the
session-window reason. -/
theorem sessionCheck_gameTime_vacuous (c : ReplayClaim) (st et : ℚ)
    (hst : c.startTime = .num st) (het : c.endTime = .num et)
    (hlt : st < et) (hg : c.gameTime = .undef ∨ c.gameTime = .nan) :
    sessionCheck c = true ∧
      ∀ sch : List ScheduleEntry, preEventChecks sch c ≠ some sessionInvalidResult := by
  have hsc : sessionCheck c = true := by
    unfold sessionCheck
    rw [hst, het]
    have h1 : jle (JVal.num et) (JVal.num st) = false := by
      simp [jle, not_le.mpr hlt]
    have h2 : jadd c.gameTime (JVal.num 3000) = .nan := by
      rcases hg with h | h <;> rw [h] <;> rfl
    rw [h1, h2]
    simp [typeofNumber, jsub, jgt]
  refine ⟨hsc, fun sch => ?_⟩
  unfold preEventChecks
  rw [hsc]
  by_cases hb : eatenByCheck c
  · rw [hb]
    simp only [Bool.not_true, Bool.false_eq_true, if_false]
    cases hl : lookupEntry sch c.eatenBy with
    | none =>
      simp only [hl]
      intro h
      have := (Option.some.injEq _ _).mp h
      simp [noKillerEntryResult, sessionInvalidResult] at this
    | some entry =>
      simp only [hl]
      split
      · intro h
        have := (Option.some.injEq _ _).mp h
        simp [killerAfterEndResult, sessionInvalidResult] at this
      · split
        · intro h
          have := (Option.some.injEq _ _).mp h
          simp [killerTooOldResult, sessionInvalidResult] at this
        · intro h; cases h
  · have hb' : eatenByCheck c = false := by
      cases h : eatenByCheck c
      · rfl
      · exact absurd h hb
    rw [hb']
    simp only [Bool.not_false, if_true]
    intro h
    have := (Option.some.injEq _ _).mp h
    simp [badEatenByResult, sessionInvalidResult] at this

/-- C10 (witness): a claim with a one-hour-times-many duration and missing
gameTime passes the session-window check. -/
theorem sessionCheck_gameTime_vacuous_witness :
    sessionCheck
        { seed := some "seed", eaten := some [], finalScore := .num 0,
          gameTime := .undef, eatenBy := .num 0, startTime := .num 0,
          endTime := .num 1000000000 } = true ∧
      preEventChecks []
        { seed := some "seed", eaten := some [], finalScore := .num 0,
          gameTime := .undef, eatenBy := .num 0, startTime := .num 0,
          endTime := .num 1000000000 } ≠ some sessionInvalidResult := by
  have h := sessionCheck_gameTime_vacuous
    { seed := some "seed", eaten := some [], finalScore := .num 0,
      gameTime := .undef, eatenBy := .num 0, startTime := .num 0,
      endTime := .num 1000000000 } 0 1000000000 rfl rfl (by norm_num) (Or.inl rfl)
  exact ⟨h.1, h.2 []⟩

/- Helper facts for the per-event check statements. -/

lemma lookupEntry_nonneg {sch : List ScheduleEntry} {v : JVal} {e : ScheduleEntry}
    (h : lookupEntry sch v = some e) :
    typeofNumber v = true ∧ jlt v (.num 0) = false := by
  cases v with
  | undef => simp [lookupEntry] at h
  | nan => simp [lookupEntry] at h
  | num q =>
    refine ⟨rfl, ?_⟩
    by_cases hc : q.den = 1 ∧ 0 ≤ q
    · simp [jlt, not_lt.mpr hc.2]
    · exfalso
      simp only [lookupEntry] at h
      rw [if_neg hc] at h
      cases h

/-- C5: for every eaten event reaching the per-event checks with an existing
schedule entry and a numeric eat time, the dwell-window check rejects with the
window-violation reason exactly when dt = t - spawnTimeMs falls outside
[0, 60000]; in particular dt = 60000 passes while dt = 60001 and dt = -1 are
rejected. -/
theorem checkEventObj_window_iff (sch : List ScheduleEntry) (idx : JVal) (tq : ℚ)
    (ty : Option String) (sz : JVal) (ul : Option Bool) (entry : ScheduleEntry)
    (hl : lookupEntry sch idx = some entry) :
    checkEventObj sch idx (.num tq) ty sz ul = .error windowViolationResult ↔
      (tq - entry.spawnTimeMs < 0 ∨ 60000 < tq - entry.spawnTimeMs) := by
  unfold checkEventObj
  rw [hl]
  simp only [jsub]
  have hcond :
      (jlt (JVal.num (tq - entry.spawnTimeMs)) (JVal.num 0) ||
        jgt (JVal.num (tq - entry.spawnTimeMs)) (JVal.num 60000)) = true ↔
      (tq - entry.spawnTimeMs < 0 ∨ 60000 < tq - entry.spawnTimeMs) := by
    simp [jlt, jgt]
  by_cases h : tq - entry.spawnTimeMs < 0 ∨ 60000 < tq - entry.spawnTimeMs
  · rw [if_pos (hcond.mpr h)]
    exact iff_of_true rfl h
  · rw [if_neg (fun hc => h (hcond.mp hc))]
    simp only [h, iff_false]
    split
    · simp [typeMismatchResult, windowViolationResult]
    · split
      · simp [sizeOutOfBoundsResult, windowViolationResult]
      · split
        · simp [ultraMismatchResult, windowViolationResult]
        · simp

/-- C5 (witness): over a schedule whose entry 0 spawns at 1000 ms, an eat
time of 61000 (dt = 60000) is not a window violation, while 61001
(dt = 60001) and 999 (dt = -1) are. -/
theorem checkEventObj_window_iff_witness :
    checkEventObj [sushiEntry] (.num 0) (.num 61000) (some "sushi") (.num 30) none ≠
        .error windowViolationResult ∧
      checkEventObj [sushiEntry] (.num 0) (.num 61001) (some "sushi") (.num 30) none =
        .error windowViolationResult ∧
      checkEventObj [sushiEntry] (.num 0) (.num 999) (some "sushi") (.num 30) none =
        .error windowViolationResult := by
  have hl : lookupEntry [sushiEntry] (.num 0) = some sushiEntry := by
    norm_num [lookupEntry]
  refine ⟨?_, ?_, ?_⟩
  · intro hc
    have := (checkEventObj_window_iff [sushiEntry] (.num 0) 61000 (some "sushi")
      (.num 30) none sushiEntry hl).mp hc
    norm_num [sushiEntry] at this
  · exact (checkEventObj_window_iff [sushiEntry] (.num 0) 61001 (some "sushi")
      (.num 30) none sushiEntry hl).mpr (by norm_num [sushiEntry])
  · exact (checkEventObj_window_iff [sushiEntry] (.num 0) 999 (some "sushi")
      (.num 30) none sushiEntry hl).mpr (by norm_num [sushiEntry])

/-- C6: for an event that reaches the size check (entry exists, dwell window
satisfied, submitted type equals the scheduled wire type) with a numeric
size, the size check rejects with the size-out-of-bounds reason exactly when
the size falls outside the scheduled kind bounds widened by 0.001 on each
side (fish bounds resolved through the drawn fishTypeIndex); in particular
minSize - 0.001 is accepted and minSize - 0.002 is rejected. -/
theorem checkEventObj_size_iff (sch : List ScheduleEntry) (idx : JVal) (tq sq : ℚ)
    (ty : Option String) (ul : Option Bool) (entry : ScheduleEntry)
    (hl : lookupEntry sch idx = some entry)
    (hw : ¬(tq - entry.spawnTimeMs < 0 ∨ 60000 < tq - entry.spawnTimeMs))
    (hty : ty = some (kindToWire (kindOf entry.spec))) :
    checkEventObj sch idx (.num tq) ty (.num sq) ul = .error sizeOutOfBoundsResult ↔
      (sq < (sizeBoundsFor entry.spec).minSize - 0.001 ∨
        (sizeBoundsFor entry.spec).maxSize + 0.001 < sq) := by
  unfold checkEventObj
  rw [hl]
  simp only [jsub]
  have hcond :
      (jlt (JVal.num (tq - entry.spawnTimeMs)) (JVal.num 0) ||
        jgt (JVal.num (tq - entry.spawnTimeMs)) (JVal.num 60000)) = true ↔
      (tq - entry.spawnTimeMs < 0 ∨ 60000 < tq - entry.spawnTimeMs) := by
    simp [jlt, jgt]
  rw [if_neg (fun hc => hw (hcond.mp hc))]
  rw [if_neg (fun hne => hne hty)]
  have hscond :
      (jlt (JVal.num sq) (JVal.num ((sizeBoundsFor entry.spec).minSize - 0.001)) ||
        jgt (JVal.num sq) (JVal.num ((sizeBoundsFor entry.spec).maxSize + 0.001))) = true ↔
      (sq < (sizeBoundsFor entry.spec).minSize - 0.001 ∨
        (sizeBoundsFor entry.spec).maxSize + 0.001 < sq) := by
    simp [jlt, jgt]
  by_cases h : sq < (sizeBoundsFor entry.spec).minSize - 0.001 ∨
      (sizeBoundsFor entry.spec).maxSize + 0.001 < sq
  · rw [if_pos (hscond.mpr h)]
    exact iff_of_true rfl h
  · rw [if_neg (fun hc => h (hscond.mp hc))]
    simp only [h, iff_false]
    split
    · simp [ultraMismatchResult, sizeOutOfBoundsResult]
    · simp

/-- C6 (witness): against a scheduled crab (minSize 50), a submitted size of
exactly 49.999 = minSize - 0.001 is not a size rejection, while 49.998 is
rejected as out of bounds. -/
theorem checkEventObj_size_iff_witness :
    checkEventObj [crabEntry] (.num 0) (.num 0) (some "crab") (.num 49.999) none ≠
        .error sizeOutOfBoundsResult ∧
      checkEventObj [crabEntry] (.num 0) (.num 0) (some "crab") (.num 49.998) none =
        .error sizeOutOfBoundsResult := by
  have hl : lookupEntry [crabEntry] (.num 0) = some crabEntry := by
    norm_num [lookupEntry]
  have hw : ¬((0 : ℚ) - crabEntry.spawnTimeMs < 0 ∨ 60000 < (0 : ℚ) - crabEntry.spawnTimeMs) := by
    norm_num [crabEntry]
  have hty : (some "crab" : Option String) = some (kindToWire (kindOf crabEntry.spec)) := by
    norm_num [crabEntry, kindOf, kindToWire]
  constructor
  · intro hc
    have := (checkEventObj_size_iff [crabEntry] (.num 0) 0 49.999 (some "crab") none
      crabEntry hl hw hty).mp hc
    norm_num [crabEntry, sizeBoundsFor] at this
  · exact (checkEventObj_size_iff [crabEntry] (.num 0) 0 49.998 (some "crab") none
      crabEntry hl hw hty).mpr (by norm_num [crabEntry, sizeBoundsFor])

/-- C7: when the session-window check has passed, startTime and endTime are
numeric, and the schedule entry at eatenBy exists, verification continues
past the killer check (no pre-event rejection) exactly when
spawnTimeMs ≤ endTime - startTime and (endTime - startTime) - spawnTimeMs
≤ 120000; an entry spawning after endTime - startTime rejects with the
spawned-after-endTime reason, and one more than 120000 ms old rejects with
the too-old reason. -/
theorem preEventChecks_killer_iff (sch : List ScheduleEntry) (c : ReplayClaim)
    (entry : ScheduleEntry) (st et : ℚ)
    (h2 : sessionCheck c = true)
    (h3 : lookupEntry sch c.eatenBy = some entry)
    (hst : c.startTime = .num st) (het : c.endTime = .num et) :
    (preEventChecks sch c = none ↔
      ((entry.spawnTimeMs : ℚ) ≤ et - st ∧ (et - st) - entry.spawnTimeMs ≤ 120000)) ∧
      (et - st < (entry.spawnTimeMs : ℚ) →
        preEventChecks sch c = some killerAfterEndResult) ∧
      (((entry.spawnTimeMs : ℚ) ≤ et - st ∧ 120000 < (et - st) - entry.spawnTimeMs) →
        preEventChecks sch c = some killerTooOldResult) := by
  have hb : eatenByCheck c = true := by
    obtain ⟨h1, h0⟩ := lookupEntry_nonneg h3
    simp [eatenByCheck, h1, h0]
  unfold preEventChecks
  rw [hb, h2, h3, hst, het]
  simp only [Bool.not_true, Bool.false_eq_true, if_false, jsub]
  have hg1 : jgt (JVal.num (entry.spawnTimeMs : ℚ)) (JVal.num (et - st)) = true ↔
      et - st < (entry.spawnTimeMs : ℚ) := by simp [jgt]
  have hg2 : jgt (JVal.num (et - st - (entry.spawnTimeMs : ℚ))) (JVal.num 120000) = true ↔
      120000 < et - st - (entry.spawnTimeMs : ℚ) := by simp [jgt]
  by_cases hA : et - st < (entry.spawnTimeMs : ℚ)
  · rw [if_pos (hg1.mpr hA)]
    refine ⟨?_, fun _ => rfl, fun hc => absurd hA (not_lt.mpr hc.1)⟩
    constructor
    · intro h; cases h
    · intro h
      exact absurd hA (not_lt.mpr h.1)
  · rw [if_neg (fun hc => hA (hg1.mp hc))]
    by_cases hB : 120000 < et - st - (entry.spawnTimeMs : ℚ)
    · rw [if_pos (hg2.mpr hB)]
      refine ⟨?_, fun hc => absurd hc hA, fun _ => rfl⟩
      constructor
      · intro h; cases h
      · intro h
        exact absurd hB (not_lt.mpr h.2)
    · rw [if_neg (fun hc => hB (hg2.mp hc))]
      refine ⟨?_, fun hc => absurd hc hA, fun hc => absurd hc.2 hB⟩
      simp only [true_iff]
      exact ⟨not_lt.mp hA, not_lt.mp hB⟩

/-- C7 (witness): with session window 0..1500 and killer spawn at 1000 ms
the checks continue; shrinking the window to 0..500 makes the killer spawn
after the reported end and rejects with that reason. -/
theorem preEventChecks_killer_iff_witness :
    preEventChecks [sushiEntry] killerOkClaim = none ∧
      preEventChecks [sushiEntry] killerLateClaim = some killerAfterEndResult := by
  have hses1 : sessionCheck killerOkClaim = true := by
    norm_num [sessionCheck, killerOkClaim, typeofNumber, jle, jsub, jgt, jadd]
  have hses2 : sessionCheck killerLateClaim = true := by
    norm_num [sessionCheck, killerLateClaim, typeofNumber, jle, jsub, jgt, jadd]
  have hl1 : lookupEntry [sushiEntry] killerOkClaim.eatenBy = some sushiEntry := by
    norm_num [lookupEntry, killerOkClaim]
  have hl2 : lookupEntry [sushiEntry] killerLateClaim.eatenBy = some sushiEntry := by
    norm_num [lookupEntry, killerLateClaim]
  constructor
  · exact (preEventChecks_killer_iff [sushiEntry] killerOkClaim sushiEntry 0 1500
      hses1 hl1 rfl rfl).1.mpr (by norm_num [sushiEntry])
  · exact (preEventChecks_killer_iff [sushiEntry] killerLateClaim sushiEntry 0 500
      hses2 hl2 rfl rfl).2.1 (by norm_num [sushiEntry])

/- Helper lemmas for totality of verifyReplay on well-indexed claims. -/

lemma eatenMaxIdx_good :
    ∀ (evs : List EatenItem) (a : ℚ), evs.all goodItem = true → a.den = 1 →
      a < 2 ^ 32 - 1 →
      ∃ q : ℚ, eatenMaxIdx evs (.num a) = .ok (.num q) ∧ q.den = 1 ∧ q < 2 ^ 32 - 1 := by
  intro evs
  induction evs with
  | nil => exact fun a _ h1 h2 => ⟨a, rfl, h1, h2⟩
  | cons e tl ih =>
    intro a hall h1 h2
    cases e with
    | nullish => simp [goodItem] at hall
    | obj idx t ty sz ul =>
      rw [List.all_cons] at hall
      have hidx := (Bool.and_eq_true _ _).mp hall
      cases idx with
      | undef => simp [goodItem, goodIdx] at hidx
      | nan => simp [goodItem, goodIdx] at hidx
      | num p =>
        have hp : p.den = 1 ∧ p < 2 ^ 32 - 1 := by
          have := hidx.1
          simpa [goodItem, goodIdx] using this
        have hmax : jmax (JVal.num a) (JVal.num p) = .num (max a p) := by
          simp [jmax, toNumber]
        have hden : (max a p).den = 1 := by
          rcases max_choice a p with h | h <;> rw [h]
          · exact h1
          · exact hp.1
        have hbound : max a p < 2 ^ 32 - 1 := max_lt h2 hp.2
        have := ih (max a p) hidx.2 hden hbound
        simpa [eatenMaxIdx, hmax] using this

lemma maxIdxCalc_good (evs : List EatenItem) (eb : JVal)
    (hall : evs.all goodItem = true) (heb : goodEatenBy eb = true) :
    ∃ q : ℚ, maxIdxCalc evs eb = .ok (.num q) ∧ q.den = 1 ∧ q < 2 ^ 32 - 1 := by
  obtain ⟨q0, hq0, hd0, hb0⟩ := eatenMaxIdx_good evs (-1) hall (by norm_num) (by norm_num)
  cases eb with
  | undef =>
    refine ⟨max q0 (-1), ?_, ?_, ?_⟩
    · simp [maxIdxCalc, hq0, typeofNumber, jmax, toNumber]
    · rcases max_choice q0 (-1) with h | h <;> rw [h]
      · exact hd0
      · norm_num
    · exact max_lt hb0 (by norm_num)
  | nan => simp [goodEatenBy] at heb
  | num p =>
    have hp : p.den = 1 ∧ p < 2 ^ 32 - 1 := by simpa [goodEatenBy] using heb
    refine ⟨max q0 p, ?_, ?_, ?_⟩
    · simp [maxIdxCalc, hq0, typeofNumber, jmax, toNumber]
    · rcases max_choice q0 p with h | h <;> rw [h]
      · exact hd0
      · exact hp.1
    · exact max_lt hb0 hp.2

lemma den_one_add_one {q : ℚ} (h : q.den = 1) : (q + 1).den = 1 := by
  have hq : (q.num : ℚ) = q := (Rat.den_eq_one_iff q).mp h
  have : q + 1 = ((q.num + 1 : ℤ) : ℚ) := by push_cast [hq]; ring
  rw [this]
  exact Rat.den_intCast _

lemma eventsLoop_total (sch : List ScheduleEntry) :
    ∀ (evs : List EatenItem) (acc : JVal), evs.all goodItem = true →
      ∃ out, eventsLoop sch evs acc = .ok out := by
  intro evs
  induction evs with
  | nil => exact fun acc _ => ⟨.ok acc, rfl⟩
  | cons e tl ih =>
    intro acc hall
    cases e with
    | nullish => simp [goodItem] at hall
    | obj idx t ty sz ul =>
      rw [List.all_cons] at hall
      have htl := ((Bool.and_eq_true _ _).mp hall).2
      cases hc : checkEventObj sch idx t ty sz ul with
      | error r => exact ⟨.error r, by simp [eventsLoop, hc]⟩
      | ok pts =>
        obtain ⟨out, hout⟩ := ih (jadd acc pts) htl
        exact ⟨out, by simp [eventsLoop, hc, hout]⟩

lemma verifyCore_total (sch : List ScheduleEntry) (c : ReplayClaim)
    (evs : List EatenItem) (hall : evs.all goodItem = true) :
    ∃ r, verifyCore sch c evs = .ok r := by
  cases hp : preEventChecks sch c with
  | some r => exact ⟨r, by simp [verifyCore, hp]⟩
  | none =>
    obtain ⟨out, hout⟩ := eventsLoop_total sch evs (.num 0) hall
    cases out with
    | error r => exact ⟨r, by simp [verifyCore, hp, hout]⟩
    | ok total =>
      exact ⟨if jeqStrict total c.finalScore then okResult else scoreMismatchResult,
        by simp [verifyCore, hp, hout]⟩

/-- C2 (amended): verifyReplay returns a structured result on every claim
whose eaten elements are all objects carrying an integer-valued numeric idx
(below the maximal array length) and whose eatenBy is either not a number or
such an integer: on those inputs no exception can escape.  The claimed
universal totality fails: there is no exception handler in the function (see
the counterexample). -/
theorem verifyReplay_total_when_indices_wellformed (s d : ℕ → ℚ) (c : ReplayClaim)
    (h1 : ∀ evs, c.eaten = some evs → evs.all goodItem = true)
    (h2 : goodEatenBy c.eatenBy = true) :
    ∃ r, verifyReplay s d c = .ok r := by
  unfold verifyReplay
  cases hsh : shapeOk c with
  | false => exact ⟨malformedResult, by simp⟩
  | true =>
    simp only [Bool.not_true, Bool.false_eq_true, if_false]
    cases he : c.eaten with
    | none => simp [shapeOk, he] at hsh
    | some evs =>
      simp only [he, Option.getD_some]
      cases hev : evs with
      | nil =>
        subst hev
        refine ⟨if jeqStrict c.finalScore (JVal.num 0) then okResult else emptyNonZeroResult,
          ?_⟩
        simp
      | cons e0 tl =>
        subst hev
        simp only [List.isEmpty_cons, Bool.false_eq_true, if_false]
        have hall : (e0 :: tl).all goodItem = true := h1 _ he
        obtain ⟨q, hq, hd, hb⟩ := maxIdxCalc_good _ c.eatenBy hall h2
        simp only [hq]
        by_cases hneg : jlt (JVal.num q) (JVal.num 0) = true
        · rw [if_pos hneg]
          exact ⟨missingIdxResult, rfl⟩
        · rw [if_neg hneg]
          have hneg2 : jlt (JVal.num q) (JVal.num 0) = false := by
            cases h : jlt (JVal.num q) (JVal.num 0)
            · rfl
            · exact absurd h hneg
          have h0 : (0 : ℚ) ≤ q :=
            not_lt.mp (of_decide_eq_false (by simpa [jlt] using hneg2))
          have hlen : arrayLen (jadd (JVal.num q) (JVal.num 1)) = .ok (q + 1).num.toNat := by
            simp only [jadd, arrayLen]
            rw [if_pos ⟨den_one_add_one hd, by linarith, by linarith⟩]
          simp only [hlen]
          exact verifyCore_total (buildSchedule s d ((q + 1).num.toNat - 1)) c _ hall

/-- C2 (counterexample): verifyReplay is not total: an eaten array containing
a non-object element makes the maxIdx reduce throw a TypeError, and an event
object without a numeric idx makes maxIdx NaN so that new Array(maxIdx + 1)
throws a RangeError; neither exception is caught. -/
theorem verifyReplay_throws_on_malformed_events :
    verifyReplay halfDraws unitDelays nullItemClaim = .error .typeError ∧
      verifyReplay halfDraws unitDelays noIdxClaim = .error .rangeError := by
  constructor
  · norm_num [verifyReplay, shapeOk, nullItemClaim, maxIdxCalc, eatenMaxIdx,
      typeofNumber, List.isEmpty]
  · norm_num [verifyReplay, shapeOk, noIdxClaim, maxIdxCalc, eatenMaxIdx, jmax,
      toNumber, typeofNumber, jlt, jadd, arrayLen, List.isEmpty]

/-- C2 (witness): the duplicate-event claim has well-formed indices, and the
amended theorem yields a structured result on it. -/
theorem verifyReplay_total_when_indices_wellformed_witness :
    (∀ evs, dupClaim.eaten = some evs → evs.all goodItem = true) ∧
      goodEatenBy dupClaim.eatenBy = true ∧
      ∃ r, verifyReplay halfDraws unitDelays dupClaim = .ok r := by
  have hg : ∀ evs, dupClaim.eaten = some evs → evs.all goodItem = true := by
    intro evs hevs
    have : evs = [fishEvent, fishEvent] := by
      simpa [dupClaim] using hevs.symm
    subst this
    norm_num [goodItem, goodIdx, fishEvent, List.all_cons]
  have hb : goodEatenBy dupClaim.eatenBy = true := by
    norm_num [goodEatenBy, dupClaim]
  exact ⟨hg, hb, verifyReplay_total_when_indices_wellformed halfDraws unitDelays dupClaim
    hg hb⟩

/- Helper lemmas for the score-accumulation statement. -/

lemma checkEventObj_points {sch : List ScheduleEntry} {idx t : JVal}
    {ty : Option String} {sz : JVal} {ul : Option Bool} {pts : JVal}
    (h : checkEventObj sch idx t ty sz ul = .ok pts) :
    pts = if ty = some "sushi" then .num 50 else jfloor sz := by
  unfold checkEventObj at h
  cases hl : lookupEntry sch idx with
  | none => simp only [hl] at h; cases h
  | some entry =>
    simp only [hl] at h
    by_cases h1 : (jlt (jsub t (JVal.num (entry.spawnTimeMs : ℚ))) (JVal.num 0) ||
        jgt (jsub t (JVal.num (entry.spawnTimeMs : ℚ))) (JVal.num 60000)) = true
    · rw [if_pos h1] at h; cases h
    · rw [if_neg h1] at h
      by_cases h2 : ty ≠ some (kindToWire (kindOf entry.spec))
      · rw [if_pos h2] at h; cases h
      · rw [if_neg h2] at h
        by_cases h3 : (jlt sz (JVal.num ((sizeBoundsFor entry.spec).minSize - 0.001)) ||
            jgt sz (JVal.num ((sizeBoundsFor entry.spec).maxSize + 0.001))) = true
        · rw [if_pos h3] at h; cases h
        · rw [if_neg h3] at h
          by_cases h4 : (decide (ty = some "fish") &&
              (Option.getD ul false != specUltra entry.spec)) = true
          · rw [if_pos h4] at h; cases h
          · rw [if_neg h4] at h
            exact ((Except.ok.injEq _ _).mp h).symm

lemma eventsLoop_ok_score (sch : List ScheduleEntry) :
    ∀ (evs : List EatenItem) (acc v : JVal),
      eventsLoop sch evs acc = .ok (.ok v) → v = evs.foldl scoreStep acc := by
  intro evs
  induction evs with
  | nil =>
    intro acc v h
    simp only [eventsLoop] at h
    simpa [List.foldl] using ((Except.ok.injEq _ _).mp h).symm
  | cons e tl ih =>
    intro acc v h
    cases e with
    | nullish => simp [eventsLoop] at h
    | obj idx t ty sz ul =>
      simp only [eventsLoop] at h
      cases hc : checkEventObj sch idx t ty sz ul <;> rw [hc] at h
      · simp at h
      · have := ih (jadd acc _) v h
        rw [this, List.foldl_cons]
        have hp := checkEventObj_points hc
        simp only [scoreStep, hp]

/-- C3: for a claim that reaches the per-event loop and whose events all pass
the per-event checks, the accumulated score is exactly claimedScore (50 per
sushi event regardless of size, floor of the submitted size for every other
kind, using the submitted sizes only), and the claim is then accepted iff
that score strictly equals the submitted finalScore, any mismatch rejecting
with the score-mismatch reason. -/
theorem verifyReplay_score_rule (s d : ℕ → ℚ) (c : ReplayClaim)
    (evs : List EatenItem) (m : JVal) (len : ℕ) (v : JVal)
    (hsh : shapeOk c = true) (he : c.eaten = some evs) (hne : evs ≠ [])
    (hm : maxIdxCalc evs c.eatenBy = .ok m)
    (hneg : jlt m (.num 0) = false)
    (hlen : arrayLen (jadd m (.num 1)) = .ok len)
    (hpre : preEventChecks (buildSchedule s d (len - 1)) c = none)
    (hloop : eventsLoop (buildSchedule s d (len - 1)) evs (.num 0) = .ok (.ok v)) :
    v = claimedScore evs ∧
      verifyReplay s d c =
        .ok (if jeqStrict (claimedScore evs) c.finalScore then okResult
          else scoreMismatchResult) ∧
      (verifyReplay s d c = .ok okResult ↔
        jeqStrict (claimedScore evs) c.finalScore = true) := by
  have hv : v = claimedScore evs := eventsLoop_ok_score _ evs (.num 0) v hloop
  have hemp : evs.isEmpty = false := by
    cases evs
    · exact absurd rfl hne
    · rfl
  have hrun : verifyReplay s d c =
      .ok (if jeqStrict (claimedScore evs) c.finalScore then okResult
        else scoreMismatchResult) := by
    unfold verifyReplay
    rw [hsh]
    simp only [Bool.not_true, Bool.false_eq_true, if_false, he, Option.getD_some, hemp]
    simp only [Bool.false_eq_true, if_false, hm, hneg, hlen]
    unfold verifyCore
    rw [hpre]
    simp only [hloop, hv]
  refine ⟨hv, hrun, ?_⟩
  rw [hrun]
  cases hk : jeqStrict (claimedScore evs) c.finalScore with
  | true => simp
  | false =>
    simp only [Bool.false_eq_true, if_false]
    constructor
    · intro hcon
      have := (Except.ok.injEq _ _).mp hcon
      simp [scoreMismatchResult, okResult] at this
    · intro hcon; cases hcon

/-- C3 (witness): the sushi claim reaches the loop, every event passes, and
with finalScore = 100 = 2 * 50 the claim is accepted; its accumulated score
is claimedScore of its events. -/
theorem verifyReplay_score_rule_witness :
    verifyReplay sushiDraws unitDelays sushiClaim = .ok okResult := by
  have hbs : buildSchedule sushiDraws unitDelays 0 = [sushiEntry] := by
    norm_num [buildSchedule, buildFrom, stepEntry, mkSpec, pickSpawnKind, pickFromList,
      TOTAL_SPEC_WEIGHT, SPAWN_SPEC_WEIGHTS, sushiDraws, unitDelays, jsRound, sushiEntry,
      List.foldl]
  have h := verifyReplay_score_rule sushiDraws unitDelays sushiClaim
    [sushiEvent, sushiEvent] (.num 0) 1 (.num 100)
    (by norm_num [shapeOk, sushiClaim, typeofNumber])
    rfl
    (by simp)
    (by norm_num [maxIdxCalc, eatenMaxIdx, sushiClaim, sushiEvent, jmax, toNumber,
      typeofNumber, List.foldl])
    (by norm_num [jlt])
    (by norm_num [arrayLen, jadd])
    (by rw [show (1 - 1 : ℕ) = 0 from rfl, hbs]
        norm_num [preEventChecks, eatenByCheck, sessionCheck, lookupEntry, sushiClaim,
          sushiEntry, typeofNumber, jlt, jle, jgt, jsub, jadd])
    (by rw [show (1 - 1 : ℕ) = 0 from rfl, hbs]
        norm_num [eventsLoop, checkEventObj, lookupEntry, sushiEvent, sushiEntry,
          typeofNumber, jlt, jgt, jsub, jadd, kindOf, kindToWire, sizeBoundsFor, specUltra,
          jfloor])
  exact h.2.2.mpr (by norm_num [claimedScore, scoreStep, sushiEvent, sushiClaim, jadd,
    jeqStrict, jfloor, List.foldl])

end Nomu
